import Mathlib

/-!
Verification development for `monitor.py` (TorrentLeech continuous monitor).

The relevant parts of the Python source are shallowly embedded below:
strings become `List Char`, Python sets of strings become `List (List Char)`
with membership semantics, floats used for sizes in GB become `ℚ`, and every
I/O interaction (socket reads, HTTP fetches, bencode decoding, FTP) is made
explicit as an oracle parameter describing the outcome of that interaction.
All definitions are executable.
-/

namespace TLMonitor

/-- Python strings are modelled as lists of characters. -/
abbrev Str := List Char

/-! ## Character helpers (ASCII fragment of Python's `str` semantics) -/

/-- ASCII lowercasing, the fragment of Python's case folding exercised by
`re.IGNORECASE` on the patterns of `monitor.py` (all pattern letters are
ASCII). -/
def lowerChar (c : Char) : Char :=
  if 65 ≤ c.toNat ∧ c.toNat ≤ 90 then Char.ofNat (c.toNat + 32) else c

/-- ASCII whitespace accepted by the regex class `\s`
(space, tab, newline, carriage return, vertical tab, form feed). -/
def isSpaceChar (c : Char) : Bool :=
  c = ' ' || c = '\t' || c = '\n' || c = '\r' || c = '\x0b' || c = '\x0c'

/-- ASCII digits, the regex class `\d`. -/
def isDigitChar (c : Char) : Bool :=
  '0' ≤ c && c ≤ '9'

/-- The regex class `[^']`: any character other than a single quote. -/
def notQuote (c : Char) : Bool := c != '\''

/-! ## Generic string helpers -/

/-- `needle` is a prefix of `hay` (character-exact). -/
def isPre : Str → Str → Bool
  | [], _ => true
  | _ :: _, [] => false
  | a :: as, b :: bs => a = b && isPre as bs

/-- Python's substring test `needle in hay`. -/
def containsSub (needle : Str) : Str → Bool
  | [] => needle.isEmpty
  | c :: t => isPre needle (c :: t) || containsSub needle t

/-- Python's `s.split('/')[-1]`: the suffix of `s` after its last `'/'`
(the whole string when no `'/'` occurs). -/
def lastSeg (s : Str) : Str :=
  (s.reverse.takeWhile (fun c => c != '/')).reverse

/-- Python's `s.strip()` on the ASCII whitespace fragment. -/
def stripChars (s : Str) : Str :=
  ((s.dropWhile isSpaceChar).reverse.dropWhile isSpaceChar).reverse

/-! ## Announcement parser (`TorrentLeechIRC.parse_announce_message`,
monitor.py lines 124-161) -/

/-- One attempt of the regex `torrent[:/](\d+)` anchored at the start of `s`:
the literal (case-sensitive) token `torrent`, one separator `:` or `/`, then
the maximal nonempty run of digits, which is the captured group. -/
def matchIdAt : Str → Option Str
  | 't' :: 'o' :: 'r' :: 'r' :: 'e' :: 'n' :: 't' :: sep :: rest =>
    if sep = ':' || sep = '/' then
      let ds := rest.takeWhile isDigitChar
      if ds.isEmpty then none else some ds
    else none
  | _ => none

/-- `re.search(r'torrent[:/](\d+)', s)`: leftmost match wins. -/
def searchId : Str → Option Str
  | [] => none
  | c :: rest =>
    match matchIdAt (c :: rest) with
    | some d => some d
    | none => searchId rest

/-- One attempt of the regex `<([^>]+)>` anchored at the start of `s`:
an opening `<`, a maximal nonempty run of non-`>` characters (the captured
group), and a closing `>` which must be present. -/
def matchCatAt : Str → Option Str
  | '<' :: rest =>
    let content := rest.takeWhile (fun c => c != '>')
    if content.isEmpty then none
    else
      match rest.drop content.length with
      | '>' :: _ => some content
      | _ => none
  | _ => none

/-- `re.search(r'<([^>]+)>', s)`: leftmost match wins. -/
def searchCat : Str → Option Str
  | [] => none
  | c :: rest =>
    match matchCatAt (c :: rest) with
    | some cat => some cat
    | none => searchCat rest

/-- One attempt of the regex `Name:'([^']+)'` anchored at the start of `s`. -/
def matchTitleAt : Str → Option Str
  | 'N' :: 'a' :: 'm' :: 'e' :: ':' :: '\'' :: rest =>
    let content := rest.takeWhile notQuote
    if content.isEmpty then none
    else
      match rest.drop content.length with
      | '\'' :: _ => some content
      | _ => none
  | _ => none

/-- `re.search(r"Name:'([^']+)'", s)`: leftmost match wins. -/
def searchTitle : Str → Option Str
  | [] => none
  | c :: rest =>
    match matchTitleAt (c :: rest) with
    | some t => some t
    | none => searchTitle rest

/-- Case-insensitive literal match: match `pat` (given lowercased) against
the head of `s`, returning the remainder on success.  This is how the regex
engine compares a literal pattern under `re.IGNORECASE`: cased letters
compare after folding, uncased characters compare exactly. -/
def matchCI : Str → Str → Option Str
  | [], s => some s
  | _ :: _, [] => none
  | p :: ps, c :: cs => if lowerChar c = p then matchCI ps cs else none

/-- First literal of the freeleech regex, lowercased. -/
def flLit1 : Str := "uploaded by '".toList

/-- Second literal of the freeleech regex, lowercased. -/
def flLit2 : Str := "' freeleech".toList

/-- One attempt of `re.search(r"uploaded by '[^']+' freeleech\s", s,
re.IGNORECASE)` anchored at the start of `s`: the literal `uploaded by '`,
a maximal nonempty run of non-quote characters (the uploader name, which
must end at the next quote), the literal `' freeleech`, then one whitespace
character. -/
def flMatchAt (s : Str) : Bool :=
  match matchCI flLit1 s with
  | none => false
  | some rest =>
    if (rest.takeWhile notQuote).isEmpty then false
    else
      match matchCI flLit2 (rest.drop (rest.takeWhile notQuote).length) with
      | none => false
      | some (c :: _) => isSpaceChar c
      | some [] => false

/-- The full search for the anchored freeleech pattern: leftmost-to-right
scan over every start position (monitor.py line 149). -/
def flSearch : Str → Bool
  | [] => false
  | c :: rest => flMatchAt (c :: rest) || flSearch rest

/-- The structured event produced by `parse_announce_message`.  The Python
dict also carries a `timestamp` (wall-clock time), which is not modelled. -/
structure AnnounceInfo where
  id : Str
  freeleech : Bool
  category : Option Str
  title : Option Str
  message : Str
deriving DecidableEq, Repr

/-- `TorrentLeechIRC.parse_announce_message` (monitor.py lines 124-161):
`None` when no torrent id is found, otherwise the structured event.  The
category and title are stripped of surrounding whitespace as in the source. -/
def parseAnnounceMessage (message : Str) : Option AnnounceInfo :=
  match searchId message with
  | none => none
  | some tid =>
    some { id := tid
           freeleech := flSearch message
           category := (searchCat message).map stripChars
           title := (searchTitle message).map stripChars
           message := message }

/-! ## Specification-side predicate for claim C6 -/

/-- Written from the spec's words (§4.1 rule 4): the text contains, matched
case-insensitively, the token sequence `uploaded by '<non-quote text>'
freeleech` followed by a whitespace character.  Used only to compare with
the source-derived `flSearch`. -/
def AnchoredFreeleech (s : Str) : Prop :=
  ∃ pre l1 name l2 ws post,
    s = pre ++ l1 ++ name ++ l2 ++ ws :: post ∧
    l1.map lowerChar = flLit1 ∧
    name ≠ [] ∧
    '\'' ∉ name ∧
    l2.map lowerChar = flLit2 ∧
    isSpaceChar ws = true

/-! ## Monitor configuration and state (`TorrentMonitor.__init__`,
monitor.py lines 246-290) -/

/-- The configuration fields of `TorrentMonitor` consulted by the code paths
under verification.  Sizes are GB values; the source stores Python floats,
modelled as `ℚ`. -/
structure MonitorConfig where
  rssUrl : Str
  categories : Option (List Str)
  minSize : Option ℚ
  maxSize : Option ℚ
  ftpEnabled : Bool
deriving DecidableEq

/-- Python truthiness of `self.categories` (`None` or `[]` are falsy). -/
def categoriesTruthy (cats : Option (List Str)) : Bool :=
  match cats with
  | none => false
  | some l => !l.isEmpty

/-- Python truthiness of an optional string (`None` or `''` are falsy). -/
def strTruthy (s : Option Str) : Bool :=
  match s with
  | none => false
  | some l => !l.isEmpty

/-- `any(cat.lower() in c.lower() for cat in cats)`: case-insensitive
substring match of at least one configured category term. -/
def catAny (cats : Option (List Str)) (c : Str) : Bool :=
  (cats.getD []).any (fun cat => containsSub (cat.map lowerChar) (c.map lowerChar))

/-- The category rejection test of the live-channel path (monitor.py lines
304-309): the filter applies only when categories are configured AND the
parsed category is truthy; it rejects when no configured term matches. -/
def ircCatReject (cfg : MonitorConfig) (cat : Option Str) : Bool :=
  categoriesTruthy cfg.categories && strTruthy cat && !catAny cfg.categories (cat.getD [])

/-- The category rejection test of the feed path (monitor.py lines 369-371):
the filter applies whenever categories are configured; the entry category
always has a value (default `"Unknown"`). -/
def rssCatReject (cfg : MonitorConfig) (category : Str) : Bool :=
  categoriesTruthy cfg.categories && !catAny cfg.categories category

/-- The mutable state of `TorrentMonitor` touched by the verified paths,
plus `pipelineLog`: a ghost trace recording, for each invocation of the
download pipeline (`download_torrent`), the identifier of the candidate
that triggered it.  The log exists only to observe pipeline invocations in
the theorems; it has no effect on control flow. -/
structure MonitorState where
  processed : List Str
  torrentsFound : Nat
  torrentsDownloaded : Nat
  errors : Nat
  rssChecks : Nat
  pipelineLog : List Str
deriving DecidableEq, Repr

/-- Python `set.add`: membership-preserving insertion. -/
def insertId (s : List Str) (x : Str) : List Str :=
  if x ∈ s then s else x :: s

/-! ## Size estimation (`TorrentMonitor.get_torrent_size`,
monitor.py lines 416-444) -/

/-- The decoded bencode dictionary, restricted to the fields read by
`get_torrent_size`: `info.length` (single-file) and the `length` of each
entry of `info.files` (multi-file). -/
structure TorrentData where
  infoPresent : Bool
  length : Option Nat
  files : Option (List Nat)
deriving DecidableEq, Repr

/-- Total declared byte size (monitor.py lines 426-436): the single declared
length when present, else the sum over `files`, else `0`. -/
def totalSize (d : TorrentData) : Nat :=
  if d.infoPresent then
    match d.length with
    | some l => l
    | none =>
      match d.files with
      | some fs => fs.sum
      | none => 0
  else 0

/-- `get_torrent_size`: the fetch-and-decode interaction is the oracle
argument; `none` is the exception path (any fetch or decode failure), which
the source turns into a `None` return.  On success the byte total is
converted to GB by dividing by `1024 ** 3`. -/
def getTorrentSize (fetched : Option TorrentData) : Option ℚ :=
  match fetched with
  | none => none
  | some d => some ((totalSize d : ℚ) / (1024 ^ 3 : ℚ))

/-! ## Download pipeline (`TorrentMonitor.download_torrent` and
`upload_to_ftp`, monitor.py lines 446-532) -/

/-- Characters replaced by `_` by `re.sub(r'[<>:\"/\\|?*]', '_', title)`. -/
def badPathChar (c : Char) : Bool :=
  c = '<' || c = '>' || c = ':' || c = '\"' || c = '/' ||
  c = '\\' || c = '|' || c = '?' || c = '*'

/-- Filename/URL sanitization of a title (monitor.py lines 323-324, 503-504):
replace disallowed path characters by `_`, truncate to 200 characters. -/
def sanitizeTitle (t : Str) : Str :=
  (t.map (fun c => if badPathChar c then '_' else c)).take 200

/-- Outcomes of the I/O performed by one `download_torrent` call. -/
structure DownloadEnv where
  fetchOk : Bool
  ftpOk : Bool
deriving DecidableEq, Repr

/-- Oracle outcomes for the I/O of one candidate's processing: the result
of the size-estimation fetch/decode (`none` = failure) and the download
pipeline outcomes. -/
structure CallEnv where
  sizeFetch : Option TorrentData
  dl : DownloadEnv
deriving DecidableEq, Repr

/-- `TorrentMonitor.download_torrent` (monitor.py lines 499-532): records
the pipeline invocation (ghost log, tagged with the candidate identifier
`tid`), then on fetch success increments the downloaded counter and, when
FTP is enabled, attempts the upload whose failure increments the error
counter (`upload_to_ftp`, lines 494-497); on fetch failure increments the
error counter. -/
def downloadTorrent (cfg : MonitorConfig) (env : DownloadEnv) (st : MonitorState)
    (tid : Str) : MonitorState :=
  let st := { st with pipelineLog := st.pipelineLog ++ [tid] }
  if env.fetchOk then
    let st := { st with torrentsDownloaded := st.torrentsDownloaded + 1 }
    if cfg.ftpEnabled then
      if env.ftpOk then st else { st with errors := st.errors + 1 }
    else st
  else { st with errors := st.errors + 1 }

/-- `size_gb < self.min_size` when a minimum is configured. -/
def sizeTooSmall (cfg : MonitorConfig) (sz : ℚ) : Bool :=
  match cfg.minSize with
  | some m => decide (sz < m)
  | none => false

/-- `size_gb > self.max_size` when a maximum is configured. -/
def sizeTooBig (cfg : MonitorConfig) (sz : ℚ) : Bool :=
  match cfg.maxSize with
  | some m => decide (m < sz)
  | none => false

/-- The shared size-filter-then-download decision tree, identical in the
live-channel path (monitor.py lines 329-341) and the feed path (lines
388-405): when a size bound is configured and the estimated size is known,
reject below the minimum or above the maximum; otherwise (including an
unknown size) invoke the download pipeline. -/
def sizeGate (cfg : MonitorConfig) (env : CallEnv) (st : MonitorState)
    (tid : Str) : MonitorState :=
  if cfg.minSize.isSome || cfg.maxSize.isSome then
    match getTorrentSize env.sizeFetch with
    | some sz =>
      if sizeTooSmall cfg sz then st
      else if sizeTooBig cfg sz then st
      else downloadTorrent cfg env.dl st tid
    | none => downloadTorrent cfg env.dl st tid
  else downloadTorrent cfg env.dl st tid

/-! ## Live-channel event path (`TorrentMonitor.on_freeleech_announce`,
monitor.py lines 292-341) -/

/-- `on_freeleech_announce`: skip if already processed; skip if the event is
not flagged freeleech; skip on category-filter rejection; otherwise mark
processed and count the find, then filter by size and download.  When the
parsed title is `None`, the log line `title[:60]` raises `TypeError` after
the candidate is already marked processed; the exception is swallowed by the
read loop, so the call ends there with no download. -/
def onFreeleechAnnounce (cfg : MonitorConfig) (env : CallEnv) (st : MonitorState)
    (info : AnnounceInfo) : MonitorState :=
  if info.id ∈ st.processed then st
  else if !info.freeleech then st
  else if ircCatReject cfg info.category then st
  else
    let st1 := { st with processed := insertId st.processed info.id
                         torrentsFound := st.torrentsFound + 1 }
    match info.title with
    | none => st1
    | some _ => sizeGate cfg env st1 info.id

/-! ## Feed poller (`TorrentMonitor.check_rss_feed`,
monitor.py lines 343-414) -/

/-- A feedparser entry, restricted to the fields the source reads:
`entry.id` (absent when `hasattr` fails), the `term` of each tag (the list
being empty when `tags` is missing or empty), `entry.title` and
`entry.link` (read with `.get` defaults). -/
structure FeedEntry where
  eid : Option Str
  tags : List (Option Str)
  title : Option Str
  link : Option Str
deriving DecidableEq, Repr

/-- The category of a feed entry (monitor.py lines 364-367): the first tag
term, default `"Unknown"` when tags are missing, empty, or lack a term. -/
def rssCategory (e : FeedEntry) : Str :=
  match e.tags with
  | [] => "Unknown".toList
  | t :: _ => t.getD "Unknown".toList

/-- Processing of one feed entry (monitor.py lines 355-407): derive the
identifier as the last path segment of `entry.id`; skip when empty or
already processed; derive the category and apply the category filter; skip
unless the identifier is in the live channel confirmation set `flSet`;
otherwise mark processed, count the find, and (when a link is present)
filter by size and download. -/
def processEntry (cfg : MonitorConfig) (flSet : List Str) (env : CallEnv)
    (st : MonitorState) (e : FeedEntry) : MonitorState :=
  match e.eid with
  | none => st
  | some eid =>
    let tid := lastSeg eid
    if tid.isEmpty then st
    else if tid ∈ st.processed then st
    else
      if rssCatReject cfg (rssCategory e) then st
      else if tid ∈ flSet then
        let st1 := { st with processed := insertId st.processed tid
                             torrentsFound := st.torrentsFound + 1 }
        let link := e.link.getD []
        if link.isEmpty then st1
        else sizeGate cfg env st1 tid
      else st

/-- One invocation of `check_rss_feed`: the check counter is incremented
first; a feed fetch/parse failure (`feed = none`, the exception path)
increments the error counter; otherwise every entry is processed in order,
each with its own I/O oracle. -/
def checkRssFeed (cfg : MonitorConfig) (flSet : List Str) (st : MonitorState)
    (feed : Option (List (FeedEntry × CallEnv))) : MonitorState :=
  let st0 := { st with rssChecks := st.rssChecks + 1 }
  match feed with
  | none => { st0 with errors := st0.errors + 1 }
  | some pairs => pairs.foldl (fun s p => processEntry cfg flSet p.2 s p.1) st0

/-! ## Read-loop line processing (`TorrentLeechIRC.start_monitor`'s
`monitor_loop`, monitor.py lines 190-205) -/

/-- The state of `TorrentLeechIRC` read by the verified paths: the
confirmation set `freeleech_torrents`. -/
structure IrcState where
  freeleechTorrents : List Str
deriving DecidableEq, Repr

/-- `self.channel`. -/
def ircChannel : Str := "#tlannounces".toList

/-- Processing of one line in the read loop (monitor.py lines 191-205):
PING lines are answered (no state change); a PRIVMSG line for the monitored
channel is parsed, and on a parse the identifier is added to
`freeleech_torrents` and the callback is invoked with the event.  When the
parsed title is `None`, the log line `title[:60]` (line 200) raises
`TypeError` after the identifier was already added; the loop's exception
handler swallows it, so the callback is not invoked.  Returns the updated
state and the callback argument when the callback fires. -/
def processLine (irc : IrcState) (line : Str) : IrcState × Option AnnounceInfo :=
  if isPre "PING".toList line then (irc, none)
  else if containsSub "PRIVMSG".toList line && containsSub ircChannel line then
    match parseAnnounceMessage line with
    | none => (irc, none)
    | some info =>
      let irc' : IrcState := ⟨insertId irc.freeleechTorrents info.id⟩
      match info.title with
      | none => (irc', none)
      | some _ => (irc', some info)
  else (irc, none)

/-! ## The shared acceptance step and sequential interleavings (claim C2) -/

/-- The check-then-insert acceptance step both producer paths perform on
`processed_torrents` before invoking the pipeline (monitor.py lines 297/312
and 361/379): if the identifier is already present, take no action and
report `false`; otherwise insert it and report `true`. -/
def tryAccept (s : List Str) (x : Str) : Bool × List Str :=
  if x ∈ s then (false, s) else (true, x :: s)

/-- The sequence of results that repeated `tryAccept` calls return for the
identifier `X`, when the full call sequence is `xs` and the set starts as
`s`. -/
def resultsFor (X : Str) (s : List Str) : List Str → List Bool
  | [] => []
  | x :: xs =>
    let r := tryAccept s x
    if x = X then r.1 :: resultsFor X r.2 xs else resultsFor X r.2 xs

/-- One sequential call into the shared monitor state: either the
live-channel event callback with a parsed event, or one feed poll with the
confirmation-set snapshot, the fetched entries and their oracles (`none`
for a feed fetch failure). -/
inductive MonCall where
  | irc (info : AnnounceInfo) (env : CallEnv)
  | rss (flSet : List Str) (feed : Option (List (FeedEntry × CallEnv)))
deriving Repr

/-- Dispatch of one sequential call. -/
def applyCall (cfg : MonitorConfig) (st : MonitorState) : MonCall → MonitorState
  | .irc info env => onFreeleechAnnounce cfg env st info
  | .rss flSet feed => checkRssFeed cfg flSet st feed

/-- A sequential interleaving of calls from both producer paths. -/
def runCalls (cfg : MonitorConfig) (st : MonitorState) : List MonCall → MonitorState
  | [] => st
  | c :: cs => runCalls cfg (applyCall cfg st c) cs

/-! ## Reconnection loop control (`monitor_loop`, monitor.py lines 163-220,
claim C9) -/

/-- `max_reconnect` (monitor.py line 173). -/
def maxReconnect : Nat := 5

/-- Control state of the background monitor loop: the `running` flag, the
client's `connected` flag, the consecutive failed reconnection counter, and
whether the loop has exited (`break` or `running` observed false). -/
structure LoopState where
  running : Bool
  connected : Bool
  attempts : Nat
  exited : Bool
deriving DecidableEq, Repr

/-- I/O outcomes of one loop iteration: whether a connection attempt would
succeed, and whether reading raises `socket.error`. -/
structure LoopEnv where
  connectOk : Bool
  socketError : Bool
deriving DecidableEq, Repr

/-- One iteration of `monitor_loop` (monitor.py lines 175-216), restricted
to control flow: an exited loop does nothing; when `running` is false the
loop exits; when disconnected it attempts to reconnect while fewer than
`max_reconnect` consecutive failures have accrued (success resets the
counter, failure increments it) and exits permanently once the budget is
exhausted; when connected, a `socket.error` during reading clears
`connected`.  The second component reports whether this iteration made a
connection attempt. -/
def loopStep (st : LoopState) (env : LoopEnv) : LoopState × Bool :=
  if st.exited then (st, false)
  else if !st.running then ({ st with exited := true }, false)
  else if !st.connected then
    if st.attempts < maxReconnect then
      if env.connectOk then ({ st with connected := true, attempts := 0 }, true)
      else ({ st with attempts := st.attempts + 1 }, true)
    else ({ st with exited := true }, false)
  else if env.socketError then ({ st with connected := false }, false)
  else (st, false)

/-- Run the loop over a sequence of iteration environments, counting the
connection attempts made. -/
def runLoop (st : LoopState) : List LoopEnv → LoopState × Nat
  | [] => (st, 0)
  | e :: es =>
    let r := loopStep st e
    let r' := runLoop r.1 es
    (r'.1, (if r.2 then 1 else 0) + r'.2)

/-- The whole process's shared state: the background loop's control state,
the IRC client state, and the monitor state. -/
structure SystemState where
  loop : LoopState
  irc : IrcState
  mon : MonitorState
deriving DecidableEq, Repr

/-- One feed poll of the main coordination loop, acting on the system
state: it reads the confirmation set and updates the monitor state; the
background loop's control state is neither read nor written. -/
def systemRssStep (cfg : MonitorConfig) (feed : Option (List (FeedEntry × CallEnv)))
    (sys : SystemState) : SystemState :=
  { sys with mon := checkRssFeed cfg sys.irc.freeleechTorrents sys.mon feed }

/-! ## Startup configuration merge (`main`, monitor.py lines 612-771,
claims C4 and C8) -/

/-- The parsed command-line arguments.  `Option` marks a flag not given on
the command line; `noFtp` is a `store_true` flag. -/
structure CliArgs where
  config : Option Str
  url : Option Str
  categories : Option (List Str)
  output : Option Str
  ircNick : Option Str
  ircPass : Option Str
  ftpHost : Option Str
  ftpPort : Option Int
  ftpUser : Option Str
  ftpPass : Option Str
  ftpFolder : Option Str
  noFtp : Bool
  minSize : Option ℚ
  maxSize : Option ℚ
deriving DecidableEq, Repr

/-- The JSON config file's keys, each possibly absent. -/
structure ConfigData where
  url : Option Str
  categories : Option (List Str)
  output : Option Str
  ircNick : Option Str
  ircPass : Option Str
  ftpHost : Option Str
  ftpPort : Option Int
  ftpUser : Option Str
  ftpPass : Option Str
  ftpFolder : Option Str
  noFtp : Option Bool
  minSize : Option ℚ
  maxSize : Option ℚ
deriving DecidableEq, Repr

/-- The empty config dict (`config = {}` when no file is given). -/
def emptyConfig : ConfigData :=
  ⟨none, none, none, none, none, none, none, none, none, none, none, none, none⟩

/-- Python `a or c` for an optional string: a falsy left operand (`None` or
`''`) yields the right operand. -/
def orStr (a c : Option Str) : Option Str :=
  match a with
  | some s => if s.isEmpty then c else some s
  | none => c

/-- Python `a or c` for an optional string list (`None` or `[]` falsy). -/
def orList (a c : Option (List Str)) : Option (List Str) :=
  match a with
  | some l => if l.isEmpty then c else some l
  | none => c

/-- Python `a or c` for an optional integer (`None` or `0` falsy). -/
def orInt (a c : Option Int) : Option Int :=
  match a with
  | some n => if n = 0 then c else some n
  | none => c

/-- Python `a or c` for an optional float (`None` or `0.0` falsy). -/
def orRat (a c : Option ℚ) : Option ℚ :=
  match a with
  | some q => if q = 0 then c else some q
  | none => c

/-- The effective values `main` passes to the `TorrentMonitor` constructor
(monitor.py lines 746-759), after the merge of lines 730-743. -/
structure MergedParams where
  url : Option Str
  categories : Option (List Str)
  output : Str
  ircNick : Option Str
  ircPass : Option Str
  ftpHost : Option Str
  ftpPort : Option Int
  ftpUser : Option Str
  ftpPass : Option Str
  ftpFolder : Option Str
  minSize : Option ℚ
  maxSize : Option ℚ
deriving DecidableEq, Repr

/-- The merge of config-file values with command-line arguments
(monitor.py lines 730-743, `x = args.x or config.get('x', default)`),
followed by the `no_ftp` suppression of the FTP host (line 752). -/
def mergeArgs (args : CliArgs) (cfg : ConfigData) : MergedParams :=
  let noFtp := args.noFtp || cfg.noFtp.getD false
  let host := orStr args.ftpHost cfg.ftpHost
  { url := orStr args.url cfg.url
    categories := orList args.categories cfg.categories
    output := (orStr args.output (some (cfg.output.getD "./torrents".toList))).getD []
    ircNick := orStr args.ircNick cfg.ircNick
    ircPass := orStr args.ircPass cfg.ircPass
    ftpHost := if noFtp then none else host
    ftpPort := orInt args.ftpPort cfg.ftpPort
    ftpUser := orStr args.ftpUser cfg.ftpUser
    ftpPass := orStr args.ftpPass cfg.ftpPass
    ftpFolder := orStr args.ftpFolder cfg.ftpFolder
    minSize := orRat args.minSize cfg.minSize
    maxSize := orRat args.maxSize cfg.maxSize }

/-- The startup portion of `main` (monitor.py lines 717-759): when a config
file is named, a load failure (`cfgLoad = none`, the exception path of lines
721-728) exits the process with code 1; otherwise the merged parameters are
handed to the `TorrentMonitor` constructor and the monitor runs.  No other
startup path exits: in particular no value, the feed URL included, is
validated. -/
def mainStartup (args : CliArgs) (cfgLoad : Option ConfigData) :
    Except Nat MergedParams :=
  match args.config with
  | some _ =>
    match cfgLoad with
    | none => .error 1
    | some d => .ok (mergeArgs args d)
  | none => .ok (mergeArgs args emptyConfig)

/-! ## Proof-side measure and concrete sample inputs -/

/-- Measure for the at-most-once-download argument: the number of pipeline
invocations recorded for `X` plus one pending credit while `X` is still
outside `ProcessedSet`. -/
def mX (X : Str) (st : MonitorState) : Nat :=
  st.pipelineLog.count X + (if X ∈ st.processed then 0 else 1)

/-- The empty monitor state. -/
def st0 : MonitorState := ⟨[], 0, 0, 0, 0, []⟩

/-- A configuration with only a minimum size (1 GB) set. -/
def cfgMin1 : MonitorConfig := ⟨"https://tl/rss/KEY".toList, none, some 1, none, false⟩

/-- A configuration with no filters. -/
def cfgPlain : MonitorConfig := ⟨"https://tl/rss/KEY".toList, none, none, none, false⟩

/-- A configuration with a category filter. -/
def cfgCats : MonitorConfig :=
  ⟨"https://tl/rss/KEY".toList, some ["Movies".toList], none, none, false⟩

/-- Size-fetch oracle: a single-file torrent of `0.5` GB (`2^29` bytes). -/
def envHalfGB : CallEnv := ⟨some ⟨true, some 536870912, none⟩, ⟨true, true⟩⟩

/-- Size-fetch oracle: the fetch or decode fails. -/
def envNoSize : CallEnv := ⟨none, ⟨true, true⟩⟩

/-- A freeleech event with no category and a title. -/
def infoFL : AnnounceInfo := ⟨"9".toList, true, none, some "T".toList, []⟩

/-- A non-freeleech channel line that still parses: a PRIVMSG for the
monitored channel carrying a torrent URL but no `freeleech` token. -/
def badAnnounceLine : Str :=
  ":_AnnounceBot_!A@tl PRIVMSG #tlannounces :<TV> Name:'Show' uploaded by 'User' - https://www.torrentleech.org/torrent/123".toList

/-- A minimal line whose anchored freeleech pattern matches (mixed case). -/
def sampleFlMsg : Str := "torrent:7 uploaded by 'A' FREELEECH !".toList

/-- The event `parse_announce_message` yields on `sampleFlMsg`. -/
def sampleFlInfo : AnnounceInfo := ⟨"7".toList, true, none, none, sampleFlMsg⟩

/-- A feed entry for identifier `42` with no tags and a link. -/
def entry42 : FeedEntry :=
  ⟨some "https://tl/torrent/42".toList, [], some "T".toList, some "https://tl/dl/42".toList⟩

/-- Command line with no flags at all. -/
def argsEmpty : CliArgs :=
  ⟨none, none, none, none, none, none, none, none, none, none, none, false, none, none⟩

/-- Command line giving only `--config`. -/
def argsCfgOnly : CliArgs := { argsEmpty with config := some "c.json".toList }

/-- Command line giving explicitly `--min-size 0`. -/
def argsMinZero : CliArgs := { argsEmpty with minSize := some 0 }

/-- A config file defining `min_size = 2.0`. -/
def cfgFileMin2 : ConfigData := { emptyConfig with minSize := some 2 }

/-- A loop state that has exhausted its reconnection budget. -/
def loopExhausted : LoopState := ⟨true, false, 5, false⟩

/-! # Theorems -/

/-! ## Helper lemmas about characters and lists -/

theorem toNat_ofNat_valid (n : Nat) (h : n.isValidChar) : (Char.ofNat n).toNat = n := by
  rw [Char.ofNat, dif_pos h]
  rfl

theorem lowerChar_quote {c : Char} (h : lowerChar c = '\'') : c = '\'' := by
  unfold lowerChar at h
  split at h
  · rename_i hr
    exfalso
    have hv : (c.toNat + 32).isValidChar := Or.inl (by omega)
    have := congrArg Char.toNat h
    rw [toNat_ofNat_valid _ hv] at this
    have h39 : ('\'').toNat = 39 := by decide
    omega
  · exact h

theorem matchCI_iff (pat : Str) : ∀ (s r : Str),
    matchCI pat s = some r ↔ ∃ m, s = m ++ r ∧ m.map lowerChar = pat := by
  induction pat with
  | nil =>
    intro s r
    constructor
    · intro h
      simp only [matchCI, Option.some.injEq] at h
      exact ⟨[], by simp [h], rfl⟩
    · rintro ⟨m, hs, hm⟩
      have hm0 : m = [] := by
        cases m with
        | nil => rfl
        | cons a as => simp at hm
      subst hm0
      simp at hs
      simp [matchCI, hs]
  | cons p ps ih =>
    intro s r
    cases s with
    | nil =>
      simp only [matchCI]
      constructor
      · intro h
        exact absurd h (by simp)
      · rintro ⟨m, hs, hm⟩
        have : m = [] := by
          cases m with
          | nil => rfl
          | cons a as => simp at hs
        subst this
        simp at hm
    | cons c cs =>
      simp only [matchCI]
      by_cases hc : lowerChar c = p
      · rw [if_pos hc, ih]
        constructor
        · rintro ⟨m', hcs, hm'⟩
          exact ⟨c :: m', by simp [hcs], by simp [hm', hc]⟩
        · rintro ⟨m, hs, hm⟩
          cases m with
          | nil => simp at hm
          | cons a as =>
            simp only [List.cons_append, List.cons.injEq] at hs
            simp only [List.map_cons, List.cons.injEq] at hm
            exact ⟨as, hs.2, hm.2⟩
      · rw [if_neg hc]
        constructor
        · intro h
          exact absurd h (by simp)
        · rintro ⟨m, hs, hm⟩
          cases m with
          | nil => simp at hm
          | cons a as =>
            simp only [List.cons_append, List.cons.injEq] at hs
            simp only [List.map_cons, List.cons.injEq] at hm
            exact absurd (hs.1 ▸ hm.1) hc

theorem takeWhile_append_cons {p : Char → Bool} (a : Str) (c : Char) (t : Str)
    (ha : ∀ x ∈ a, p x = true) (hc : p c = false) :
    (a ++ c :: t).takeWhile p = a := by
  induction a with
  | nil => simp [List.takeWhile_cons, hc]
  | cons x xs ih =>
    have hx : p x = true := ha x (by simp)
    simp [List.cons_append, List.takeWhile_cons, hx, ih (fun y hy => ha y (by simp [hy]))]

theorem drop_takeWhile_length (p : Char → Bool) :
    ∀ l : Str, l.drop (l.takeWhile p).length = l.dropWhile p := by
  intro l
  induction l with
  | nil => rfl
  | cons x xs ih =>
    by_cases h : p x = true
    · simp [List.takeWhile_cons, List.dropWhile_cons, h, ih]
    · simp [List.takeWhile_cons, List.dropWhile_cons, h]

theorem flMatchAt_iff (s : Str) :
    flMatchAt s = true ↔
    ∃ l1 name l2 ws post,
      s = l1 ++ name ++ l2 ++ ws :: post ∧
      l1.map lowerChar = flLit1 ∧ name ≠ [] ∧ '\'' ∉ name ∧
      l2.map lowerChar = flLit2 ∧ isSpaceChar ws = true := by
  constructor
  · intro h
    unfold flMatchAt at h
    split at h
    · exact absurd h (by simp)
    · rename_i rest h1
      split at h
      · exact absurd h (by simp)
      · split at h
        · exact absurd h (by simp)
        · rename_i hne hmatch ws post h2
          obtain ⟨l1, hs1, hm1⟩ := (matchCI_iff _ _ _).mp h1
          obtain ⟨l2, hs2, hm2⟩ := (matchCI_iff _ _ _).mp h2
          refine ⟨l1, rest.takeWhile notQuote, l2, ws, post, ?_, hm1, ?_, ?_, hm2, h⟩
          · rw [hs1]
            rw [drop_takeWhile_length] at hs2
            conv_lhs =>
              rw [show rest = rest.takeWhile notQuote ++ rest.dropWhile notQuote from
                    (List.takeWhile_append_dropWhile notQuote rest).symm]
            rw [hs2]
            simp [List.append_assoc]
          · intro hnil
            rw [hnil] at hne
            exact hne rfl
          · intro hq
            have := List.mem_takeWhile_imp hq
            simp [notQuote] at this
        · rename_i hne hmatch h2
          exact absurd h (by simp)
  · rintro ⟨l1, name, l2, ws, post, hs, hm1, hname, hq, hm2, hws⟩
    have hl2 : ∃ l2t, l2 = '\'' :: l2t ∧ l2t.map lowerChar = " freeleech".toList := by
      cases l2 with
      | nil => exact absurd hm2 (by decide)
      | cons q l2t =>
        have hfl : flLit2 = '\'' :: " freeleech".toList := by decide
        rw [hfl] at hm2
        simp only [List.map_cons, List.cons.injEq] at hm2
        exact ⟨l2t, by rw [lowerChar_quote hm2.1], hm2.2⟩
    obtain ⟨l2t, rfl, hm2t⟩ := hl2
    have h1 : matchCI flLit1 s = some (name ++ '\'' :: (l2t ++ ws :: post)) := by
      apply (matchCI_iff _ _ _).mpr
      refine ⟨l1, ?_, hm1⟩
      rw [hs]
      simp [List.append_assoc]
    have htw : (name ++ '\'' :: (l2t ++ ws :: post)).takeWhile notQuote = name := by
      apply takeWhile_append_cons
      · intro x hx
        simp only [notQuote, bne_iff_ne, ne_eq, decide_eq_true_eq]
        intro hxq
        exact hq (hxq ▸ hx)
      · decide
    have hdrop : (name ++ '\'' :: (l2t ++ ws :: post)).drop name.length =
        '\'' :: (l2t ++ ws :: post) := List.drop_left name _
    have h2 : matchCI flLit2 ('\'' :: (l2t ++ ws :: post)) = some (ws :: post) := by
      apply (matchCI_iff _ _ _).mpr
      refine ⟨'\'' :: l2t, by simp, ?_⟩
      simp only [List.map_cons, hm2t]
      decide
    simp only [flMatchAt, h1, htw, hdrop, h2]
    have : name.isEmpty = false := by
      cases name with
      | nil => exact absurd rfl hname
      | cons a as => rfl
    simp [this, hws]

theorem flSearch_iff (s : Str) :
    flSearch s = true ↔ ∃ pre rest, s = pre ++ rest ∧ flMatchAt rest = true := by
  induction s with
  | nil =>
    simp only [flSearch]
    constructor
    · intro h
      exact absurd h (by simp)
    · rintro ⟨pre, rest, hs, hm⟩
      have hp : pre = [] := by
        cases pre with
        | nil => rfl
        | cons a as => simp at hs
      rw [hp] at hs
      simp at hs
      rw [hs] at hm
      exact absurd hm (by decide)
  | cons c cs ih =>
    simp only [flSearch, Bool.or_eq_true]
    constructor
    · rintro (h | h)
      · exact ⟨[], c :: cs, rfl, h⟩
      · obtain ⟨pre, rest, hs, hm⟩ := ih.mp h
        exact ⟨c :: pre, rest, by simp [hs], hm⟩
    · rintro ⟨pre, rest, hs, hm⟩
      cases pre with
      | nil =>
        simp at hs
        exact Or.inl (hs ▸ hm)
      | cons a as =>
        simp only [List.cons_append, List.cons.injEq] at hs
        exact Or.inr (ih.mpr ⟨as, rest, hs.2, hm⟩)

/-! ## Claim C6 -/

/-- C6: for every input line that the Announcement Parser turns into an
event, the freeleech flag is true if and only if the line contains,
case-insensitively, the anchored sequence `uploaded by '<non-quote text>'
freeleech` followed by a whitespace character; in particular a line where
`freeleech` occurs only as a substring of another word, or outside this
anchored form, yields a false flag. -/
theorem c6_freeleech_flag_anchored (msg : Str) (info : AnnounceInfo)
    (h : parseAnnounceMessage msg = some info) :
    info.freeleech = true ↔ AnchoredFreeleech msg := by
  have hfl : info.freeleech = flSearch msg := by
    unfold parseAnnounceMessage at h
    split at h
    · exact absurd h (by simp)
    · simp only [Option.some.injEq] at h
      rw [← h]
  rw [hfl, flSearch_iff]
  unfold AnchoredFreeleech
  constructor
  · rintro ⟨pre, rest, hs, hm⟩
    obtain ⟨l1, name, l2, ws, post, hr, hm1, hname, hq, hm2, hws⟩ :=
      (flMatchAt_iff rest).mp hm
    refine ⟨pre, l1, name, l2, ws, post, ?_, hm1, hname, hq, hm2, hws⟩
    rw [hs, hr]
    simp [List.append_assoc]
  · rintro ⟨pre, l1, name, l2, ws, post, hs, hm1, hname, hq, hm2, hws⟩
    refine ⟨pre, l1 ++ name ++ l2 ++ ws :: post, ?_, ?_⟩
    · rw [hs]
      simp [List.append_assoc]
    · exact (flMatchAt_iff _).mpr ⟨l1, name, l2, ws, post, rfl, hm1, hname, hq, hm2, hws⟩

/-- Witness for C6 at a concrete mixed-case line: the parser yields a
true flag and the anchored pattern is indeed present. -/
theorem c6_freeleech_flag_anchored_witness : AnchoredFreeleech sampleFlMsg :=
  (c6_freeleech_flag_anchored sampleFlMsg sampleFlInfo (by decide)).mp (by decide)

/-! ## Structural lemmas about the producer paths -/

theorem mem_insertId {s : List Str} {x y : Str} :
    y ∈ insertId s x ↔ y = x ∨ y ∈ s := by
  unfold insertId
  split_ifs with h
  · constructor
    · exact fun hy => Or.inr hy
    · rintro (rfl | hy)
      · exact h
      · exact hy
  · simp [List.mem_cons]

theorem downloadTorrent_processed (cfg : MonitorConfig) (env : DownloadEnv)
    (st : MonitorState) (tid : Str) :
    (downloadTorrent cfg env st tid).processed = st.processed := by
  simp only [downloadTorrent]
  split_ifs <;> rfl

theorem downloadTorrent_log (cfg : MonitorConfig) (env : DownloadEnv)
    (st : MonitorState) (tid : Str) :
    (downloadTorrent cfg env st tid).pipelineLog = st.pipelineLog ++ [tid] := by
  simp only [downloadTorrent]
  split_ifs <;> rfl

theorem downloadTorrent_found (cfg : MonitorConfig) (env : DownloadEnv)
    (st : MonitorState) (tid : Str) :
    (downloadTorrent cfg env st tid).torrentsFound = st.torrentsFound := by
  simp only [downloadTorrent]
  split_ifs <;> rfl

theorem sizeGate_shape (cfg : MonitorConfig) (env : CallEnv) (st : MonitorState)
    (tid : Str) :
    sizeGate cfg env st tid = st ∨
    sizeGate cfg env st tid = downloadTorrent cfg env.dl st tid := by
  unfold sizeGate
  split
  · split
    · split_ifs
      · exact Or.inl rfl
      · exact Or.inl rfl
      · exact Or.inr rfl
    · exact Or.inr rfl
  · exact Or.inr rfl

theorem announce_shape (cfg : MonitorConfig) (env : CallEnv) (st : MonitorState)
    (info : AnnounceInfo) :
    onFreeleechAnnounce cfg env st info = st ∨
    (info.id ∉ st.processed ∧
     (onFreeleechAnnounce cfg env st info =
        { st with processed := insertId st.processed info.id,
                  torrentsFound := st.torrentsFound + 1 } ∨
      onFreeleechAnnounce cfg env st info =
        downloadTorrent cfg env.dl
          { st with processed := insertId st.processed info.id,
                    torrentsFound := st.torrentsFound + 1 } info.id)) := by
  simp only [onFreeleechAnnounce]
  split_ifs with h1 h2 h3
  · exact Or.inl rfl
  · exact Or.inl rfl
  · exact Or.inl rfl
  · refine Or.inr ⟨h1, ?_⟩
    split
    · exact Or.inl rfl
    · exact sizeGate_shape cfg env _ info.id

theorem entry_shape (cfg : MonitorConfig) (flSet : List Str) (env : CallEnv)
    (st : MonitorState) (e : FeedEntry) :
    processEntry cfg flSet env st e = st ∨
    (∃ eid, e.eid = some eid ∧ lastSeg eid ∈ flSet ∧ lastSeg eid ∉ st.processed ∧
     (processEntry cfg flSet env st e =
        { st with processed := insertId st.processed (lastSeg eid),
                  torrentsFound := st.torrentsFound + 1 } ∨
      processEntry cfg flSet env st e =
        downloadTorrent cfg env.dl
          { st with processed := insertId st.processed (lastSeg eid),
                    torrentsFound := st.torrentsFound + 1 } (lastSeg eid))) := by
  simp only [processEntry]
  split
  · exact Or.inl rfl
  · rename_i eid heid
    split_ifs with h1 h2 h3 h4 h5
    · exact Or.inl rfl
    · exact Or.inl rfl
    · exact Or.inl rfl
    · exact Or.inr ⟨eid, heid, h4, h2, Or.inl rfl⟩
    · refine Or.inr ⟨eid, heid, h4, h2, ?_⟩
      exact sizeGate_shape cfg env _ (lastSeg eid)
    · exact Or.inl rfl

/-! ## The at-most-once measure -/

theorem count_append_one (l : List Str) (tid X : Str) :
    (l ++ [tid]).count X = l.count X + (if tid = X then 1 else 0) := by
  rw [List.count_append]
  by_cases h : tid = X
  · subst h
    simp
  · rw [if_neg h]
    have hx2 : X ∉ [tid] := by
      simp only [List.mem_singleton]
      exact fun hh => h hh.symm
    rw [List.count_eq_zero.mpr hx2]

theorem mX_le_of_shape {cfg : MonitorConfig} {env : DownloadEnv}
    {st r : MonitorState} {tid X : Str}
    (hnot : tid ∉ st.processed)
    (hr : r = { st with processed := insertId st.processed tid,
                        torrentsFound := st.torrentsFound + 1 } ∨
          r = downloadTorrent cfg env
                { st with processed := insertId st.processed tid,
                          torrentsFound := st.torrentsFound + 1 } tid) :
    mX X r ≤ mX X st := by
  have hproc : r.processed = insertId st.processed tid := by
    rcases hr with rfl | rfl
    · rfl
    · rw [downloadTorrent_processed]
  have hlog : r.pipelineLog = st.pipelineLog ∨
      r.pipelineLog = st.pipelineLog ++ [tid] := by
    rcases hr with rfl | rfl
    · exact Or.inl rfl
    · rw [downloadTorrent_log]
      exact Or.inr rfl
  unfold mX
  by_cases hx : X = tid
  · subst hx
    have hmem : X ∈ r.processed := by
      rw [hproc]
      exact mem_insertId.mpr (Or.inl rfl)
    rw [if_pos hmem, if_neg hnot]
    have hc : r.pipelineLog.count X ≤ st.pipelineLog.count X + 1 := by
      rcases hlog with h | h <;> rw [h]
      · omega
      · rw [count_append_one]
        split_ifs <;> omega
    omega
  · have hmem : (X ∈ r.processed) ↔ (X ∈ st.processed) := by
      rw [hproc, mem_insertId]
      simp [hx]
    have hcnt : r.pipelineLog.count X = st.pipelineLog.count X := by
      rcases hlog with h | h <;> rw [h]
      rw [count_append_one, if_neg (fun hh => hx hh.symm)]
      omega
    rw [hcnt]
    by_cases hm : X ∈ st.processed
    · rw [if_pos (hmem.mpr hm), if_pos hm]
    · rw [if_neg (fun hh => hm (hmem.mp hh)), if_neg hm]

theorem announce_mX (cfg : MonitorConfig) (env : CallEnv) (st : MonitorState)
    (info : AnnounceInfo) (X : Str) :
    mX X (onFreeleechAnnounce cfg env st info) ≤ mX X st := by
  rcases announce_shape cfg env st info with h | ⟨hnot, hsh⟩
  · rw [h]
  · exact mX_le_of_shape hnot hsh

theorem entry_mX (cfg : MonitorConfig) (flSet : List Str) (env : CallEnv)
    (st : MonitorState) (e : FeedEntry) (X : Str) :
    mX X (processEntry cfg flSet env st e) ≤ mX X st := by
  rcases entry_shape cfg flSet env st e with h | ⟨eid, _, _, hnot, hsh⟩
  · rw [h]
  · exact mX_le_of_shape hnot hsh

theorem checkRss_mX (cfg : MonitorConfig) (flSet : List Str) (st : MonitorState)
    (feed : Option (List (FeedEntry × CallEnv))) (X : Str) :
    mX X (checkRssFeed cfg flSet st feed) ≤ mX X st := by
  have hfold : ∀ (pairs : List (FeedEntry × CallEnv)) (s : MonitorState),
      mX X (pairs.foldl (fun s p => processEntry cfg flSet p.2 s p.1) s) ≤ mX X s := by
    intro pairs
    induction pairs with
    | nil => intro s; exact le_refl _
    | cons p ps ih =>
      intro s
      exact le_trans (ih _) (entry_mX cfg flSet p.2 s p.1 X)
  unfold checkRssFeed
  cases feed with
  | none => exact le_of_eq rfl
  | some pairs => exact le_trans (hfold pairs _) (le_of_eq rfl)

theorem runCalls_mX (cfg : MonitorConfig) (X : Str) :
    ∀ (calls : List MonCall) (st : MonitorState),
      mX X (runCalls cfg st calls) ≤ mX X st := by
  intro calls
  induction calls with
  | nil => intro st; exact le_refl _
  | cons c cs ih =>
    intro st
    refine le_trans (ih _) ?_
    cases c with
    | irc info env => exact announce_mX cfg env st info X
    | rss flSet feed => exact checkRss_mX cfg flSet st feed X

/-! ## The acceptance-step result sequence -/

theorem resultsFor_of_mem (X : Str) :
    ∀ (xs s : List Str), X ∈ s →
      resultsFor X s xs = List.replicate (xs.count X) false := by
  intro xs
  induction xs with
  | nil => intro s h; rfl
  | cons x t ih =>
    intro s h
    simp only [resultsFor, tryAccept]
    by_cases hx : x = X
    · subst hx
      rw [if_pos h, if_pos rfl]
      simp [List.count_cons, ih s h, List.replicate_succ]
    · rw [if_neg (fun hh => hx hh)]
      by_cases hmem : x ∈ s
      · rw [if_pos hmem]
        simp only []
        rw [ih s h]
        simp [List.count_cons, hx]
      · rw [if_neg hmem]
        simp only []
        rw [ih (x :: s) (by simp [h])]
        simp [List.count_cons, hx]

theorem resultsFor_of_not_mem (X : Str) :
    ∀ (xs s : List Str), X ∉ s →
      resultsFor X s xs = (List.replicate (xs.count X) false).set 0 true := by
  intro xs
  induction xs with
  | nil => intro s h; rfl
  | cons x t ih =>
    intro s h
    simp only [resultsFor, tryAccept]
    by_cases hx : x = X
    · subst hx
      rw [if_neg h, if_pos rfl]
      simp only []
      rw [resultsFor_of_mem x t (x :: s) (by simp)]
      simp [List.count_cons, List.replicate_succ]
    · rw [if_neg (fun hh => hx hh)]
      by_cases hmem : x ∈ s
      · rw [if_pos hmem]
        simp only []
        rw [ih s h]
        simp [List.count_cons, hx]
      · rw [if_neg hmem]
        simp only []
        rw [ih (x :: s) ?_]
        · simp [List.count_cons, hx]
        · simp only [List.mem_cons]
          rintro (hh | hh)
          · exact hx hh.symm
          · exact h hh

/-! ## Claim C2 -/

/-- C2: the shared check-and-insert acceptance step on `ProcessedSet`
succeeds on exactly the first call for an identifier `X` and fails on every
subsequent call (the result sequence for `X` is `true` once, then `false`),
and over any sequential interleaving of live-channel events and feed polls
the download pipeline is invoked at most once for `X`. -/
theorem c2_dedup_exactly_once (X : Str) (s xs : List Str)
    (cfg : MonitorConfig) (st : MonitorState) (calls : List MonCall) :
    (X ∉ s → resultsFor X s xs = (List.replicate (xs.count X) false).set 0 true) ∧
    (X ∉ st.processed →
      (runCalls cfg st calls).pipelineLog.count X ≤ st.pipelineLog.count X + 1) := by
  constructor
  · intro hs
    exact resultsFor_of_not_mem X xs s hs
  · intro hst
    have h1 := runCalls_mX cfg X calls st
    have h2 : (runCalls cfg st calls).pipelineLog.count X ≤
        mX X (runCalls cfg st calls) := by
      unfold mX
      exact Nat.le_add_right _ _
    have h3 : mX X st = st.pipelineLog.count X + 1 := by
      unfold mX
      rw [if_neg hst]
    omega

/-- Witness for C2: two acceptance calls for the same identifier yield
`[true, false]`, and a concrete interleaving delivering the same event
twice invokes the pipeline once. -/
theorem c2_dedup_exactly_once_witness :
    ("7".toList ∉ ([] : List Str) ∧
      resultsFor "7".toList [] ["7".toList, "7".toList] =
        (List.replicate (List.count "7".toList ["7".toList, "7".toList]) false).set 0 true) ∧
    ("9".toList ∉ st0.processed ∧
      (runCalls cfgPlain st0
        [MonCall.irc infoFL envNoSize, MonCall.irc infoFL envNoSize]).pipelineLog.count
          "9".toList ≤ st0.pipelineLog.count "9".toList + 1) :=
  ⟨⟨by decide,
    (c2_dedup_exactly_once "7".toList [] ["7".toList, "7".toList] cfgPlain st0 []).1
      (by decide)⟩,
   ⟨by decide,
    (c2_dedup_exactly_once "9".toList [] [] cfgPlain st0
        [MonCall.irc infoFL envNoSize, MonCall.irc infoFL envNoSize]).2
      (by decide)⟩⟩

/-! ## Accept-path reduction lemmas -/

theorem sizeGate_skip_small {cfg : MonitorConfig} {env : CallEnv}
    {st : MonitorState} {tid : Str} {m sz : ℚ}
    (hmin : cfg.minSize = some m) (hsz : getTorrentSize env.sizeFetch = some sz)
    (hlt : sz < m) : sizeGate cfg env st tid = st := by
  have hb : (cfg.minSize.isSome || cfg.maxSize.isSome) = true := by
    rw [hmin]
    rfl
  have hsmall : sizeTooSmall cfg sz = true := by
    unfold sizeTooSmall
    rw [hmin]
    exact decide_eq_true hlt
  simp only [sizeGate, hb, if_true, hsz, hsmall]

theorem sizeGate_unknown {cfg : MonitorConfig} {env : CallEnv}
    {st : MonitorState} {tid : Str} (hun : env.sizeFetch = none) :
    sizeGate cfg env st tid = downloadTorrent cfg env.dl st tid := by
  have hn : getTorrentSize env.sizeFetch = none := by
    rw [hun]
    rfl
  simp only [sizeGate, hn]
  split_ifs <;> rfl

theorem announce_accept {cfg : MonitorConfig} {env : CallEnv} {st : MonitorState}
    {info : AnnounceInfo} {t : Str} (hp : info.id ∉ st.processed)
    (hf : info.freeleech = true) (hc : ircCatReject cfg info.category = false)
    (ht : info.title = some t) :
    onFreeleechAnnounce cfg env st info =
      sizeGate cfg env
        { st with processed := insertId st.processed info.id,
                  torrentsFound := st.torrentsFound + 1 } info.id := by
  unfold onFreeleechAnnounce
  rw [if_neg hp, hf, hc, ht]
  simp

theorem announce_accept_state {cfg : MonitorConfig} {env : CallEnv}
    {st : MonitorState} {info : AnnounceInfo} (hp : info.id ∉ st.processed)
    (hf : info.freeleech = true) (hc : ircCatReject cfg info.category = false) :
    (onFreeleechAnnounce cfg env st info).processed = insertId st.processed info.id ∧
    (onFreeleechAnnounce cfg env st info).torrentsFound = st.torrentsFound + 1 := by
  unfold onFreeleechAnnounce
  rw [if_neg hp, hf, hc]
  simp only [Bool.not_true, Bool.false_eq_true, if_false]
  cases ht : info.title with
  | none => exact ⟨rfl, rfl⟩
  | some t =>
    rcases sizeGate_shape cfg env
        { st with processed := insertId st.processed info.id,
                  torrentsFound := st.torrentsFound + 1 } info.id with h | h <;> rw [h]
    · exact ⟨rfl, rfl⟩
    · rw [downloadTorrent_processed, downloadTorrent_found]
      exact ⟨rfl, rfl⟩

theorem entry_accept {cfg : MonitorConfig} {flSet : List Str} {env : CallEnv}
    {st : MonitorState} {e : FeedEntry} {eid : Str}
    (he : e.eid = some eid) (hne : (lastSeg eid).isEmpty = false)
    (hp : lastSeg eid ∉ st.processed)
    (hc : rssCatReject cfg (rssCategory e) = false)
    (hfl : lastSeg eid ∈ flSet)
    (hlk : (e.link.getD []).isEmpty = false) :
    processEntry cfg flSet env st e =
      sizeGate cfg env
        { st with processed := insertId st.processed (lastSeg eid),
                  torrentsFound := st.torrentsFound + 1 } (lastSeg eid) := by
  unfold processEntry
  rw [he]
  simp only [hne, Bool.false_eq_true, if_false, if_neg hp, hc, if_pos hfl, hlk]

/-! ## Claim C3 -/

/-- C3 (amended): when an accepted candidate's size is known and lies below
the configured minimum, the download pipeline is not invoked and the error
counter is unchanged, but the `torrents_found` counter is incremented: the
"found" accounting happens before the size rejection, on both paths. -/
theorem c3_small_size_rejected_after_found (cfg : MonitorConfig)
    (env env' : CallEnv) (st st' : MonitorState) (info : AnnounceInfo)
    (t : Str) (m m' sz sz' : ℚ) (flSet : List Str) (e : FeedEntry) (eid : Str) :
    (info.id ∉ st.processed → info.freeleech = true →
      ircCatReject cfg info.category = false → info.title = some t →
      cfg.minSize = some m → getTorrentSize env.sizeFetch = some sz → sz < m →
      (onFreeleechAnnounce cfg env st info).pipelineLog = st.pipelineLog ∧
      (onFreeleechAnnounce cfg env st info).errors = st.errors ∧
      (onFreeleechAnnounce cfg env st info).torrentsFound = st.torrentsFound + 1) ∧
    (e.eid = some eid → (lastSeg eid).isEmpty = false →
      lastSeg eid ∉ st'.processed → rssCatReject cfg (rssCategory e) = false →
      lastSeg eid ∈ flSet → (e.link.getD []).isEmpty = false →
      cfg.minSize = some m' → getTorrentSize env'.sizeFetch = some sz' → sz' < m' →
      (processEntry cfg flSet env' st' e).pipelineLog = st'.pipelineLog ∧
      (processEntry cfg flSet env' st' e).errors = st'.errors ∧
      (processEntry cfg flSet env' st' e).torrentsFound = st'.torrentsFound + 1) := by
  constructor
  · intro hp hf hc ht hmin hsz hlt
    rw [announce_accept hp hf hc ht, sizeGate_skip_small hmin hsz hlt]
    exact ⟨rfl, rfl, rfl⟩
  · intro he hne hp hc hfl hlk hmin hsz hlt
    rw [entry_accept he hne hp hc hfl hlk, sizeGate_skip_small hmin hsz hlt]
    exact ⟨rfl, rfl, rfl⟩

/-- The `0.5` GB sample size lies below the `1` GB minimum. -/
theorem halfGB_lt_one :
    ((totalSize ⟨true, some 536870912, none⟩ : ℚ) / (1024 ^ 3 : ℚ)) < 1 := by
  norm_num [totalSize]

/-- Counterexample to C3 as stated: a live-channel candidate of `0.5` GB
against `min_size = 1.0` is not downloaded and leaves the error counter
unchanged, but the `torrents_found` counter does change. -/
theorem c3_small_size_rejected_counterexample :
    (onFreeleechAnnounce cfgMin1 envHalfGB st0 infoFL).pipelineLog = st0.pipelineLog ∧
    (onFreeleechAnnounce cfgMin1 envHalfGB st0 infoFL).errors = st0.errors ∧
    (onFreeleechAnnounce cfgMin1 envHalfGB st0 infoFL).torrentsFound ≠
      st0.torrentsFound := by
  rw [announce_accept (show infoFL.id ∉ st0.processed by decide) rfl (by decide) rfl,
      sizeGate_skip_small rfl
        (show getTorrentSize envHalfGB.sizeFetch =
            some ((totalSize ⟨true, some 536870912, none⟩ : ℚ) / (1024 ^ 3 : ℚ)) from
          rfl)
        halfGB_lt_one]
  exact ⟨rfl, rfl, by decide⟩

/-- Witness for C3 (amended) at the same concrete inputs on both paths. -/
theorem c3_small_size_rejected_after_found_witness :
    ((onFreeleechAnnounce cfgMin1 envHalfGB st0 infoFL).pipelineLog = st0.pipelineLog ∧
     (onFreeleechAnnounce cfgMin1 envHalfGB st0 infoFL).errors = st0.errors ∧
     (onFreeleechAnnounce cfgMin1 envHalfGB st0 infoFL).torrentsFound =
       st0.torrentsFound + 1) ∧
    ((processEntry cfgMin1 ["42".toList] envHalfGB st0 entry42).pipelineLog =
       st0.pipelineLog ∧
     (processEntry cfgMin1 ["42".toList] envHalfGB st0 entry42).errors = st0.errors ∧
     (processEntry cfgMin1 ["42".toList] envHalfGB st0 entry42).torrentsFound =
       st0.torrentsFound + 1) :=
  ⟨(c3_small_size_rejected_after_found cfgMin1 envHalfGB envHalfGB st0 st0 infoFL
      "T".toList 1 1
      ((totalSize ⟨true, some 536870912, none⟩ : ℚ) / (1024 ^ 3 : ℚ))
      ((totalSize ⟨true, some 536870912, none⟩ : ℚ) / (1024 ^ 3 : ℚ))
      ["42".toList] entry42 "https://tl/torrent/42".toList).1
      (by decide) rfl (by decide) rfl rfl rfl halfGB_lt_one,
   (c3_small_size_rejected_after_found cfgMin1 envHalfGB envHalfGB st0 st0 infoFL
      "T".toList 1 1
      ((totalSize ⟨true, some 536870912, none⟩ : ℚ) / (1024 ^ 3 : ℚ))
      ((totalSize ⟨true, some 536870912, none⟩ : ℚ) / (1024 ^ 3 : ℚ))
      ["42".toList] entry42 "https://tl/torrent/42".toList).2
      rfl (by decide) (by decide) (by decide) (by decide) (by decide)
      rfl rfl halfGB_lt_one⟩

/-! ## Claim C5 -/

/-- C5: a fetch or decode failure makes the size estimator return unknown
(`None`), and an otherwise-accepted candidate with configured size bounds
whose estimated size is unknown is downloaded rather than rejected, on both
paths. -/
theorem c5_unknown_size_not_filtered (cfg : MonitorConfig) (env env' : CallEnv)
    (st st' : MonitorState) (info : AnnounceInfo) (t : Str) (flSet : List Str)
    (e : FeedEntry) (eid : Str) :
    getTorrentSize none = none ∧
    (info.id ∉ st.processed → info.freeleech = true →
      ircCatReject cfg info.category = false → info.title = some t →
      (cfg.minSize.isSome || cfg.maxSize.isSome) = true → env.sizeFetch = none →
      (onFreeleechAnnounce cfg env st info).pipelineLog =
        st.pipelineLog ++ [info.id]) ∧
    (e.eid = some eid → (lastSeg eid).isEmpty = false →
      lastSeg eid ∉ st'.processed → rssCatReject cfg (rssCategory e) = false →
      lastSeg eid ∈ flSet → (e.link.getD []).isEmpty = false →
      (cfg.minSize.isSome || cfg.maxSize.isSome) = true → env'.sizeFetch = none →
      (processEntry cfg flSet env' st' e).pipelineLog =
        st'.pipelineLog ++ [lastSeg eid]) := by
  refine ⟨rfl, ?_, ?_⟩
  · intro hp hf hc ht hb hun
    rw [announce_accept hp hf hc ht, sizeGate_unknown hun, downloadTorrent_log]
  · intro he hne hp hc hfl hlk hb hun
    rw [entry_accept he hne hp hc hfl hlk, sizeGate_unknown hun, downloadTorrent_log]

/-- Witness for C5 at concrete inputs on both paths. -/
theorem c5_unknown_size_not_filtered_witness :
    getTorrentSize none = none ∧
    (onFreeleechAnnounce cfgMin1 envNoSize st0 infoFL).pipelineLog =
      st0.pipelineLog ++ [infoFL.id] ∧
    (processEntry cfgMin1 ["42".toList] envNoSize st0 entry42).pipelineLog =
      st0.pipelineLog ++ [lastSeg "https://tl/torrent/42".toList] :=
  have h := c5_unknown_size_not_filtered cfgMin1 envNoSize envNoSize st0 st0 infoFL
    "T".toList ["42".toList] entry42 "https://tl/torrent/42".toList
  ⟨h.1,
   h.2.1 (by decide) rfl (by decide) rfl (by decide) rfl,
   h.2.2 rfl (by decide) (by decide) (by decide) (by decide) (by decide)
     (by decide) rfl⟩

/-! ## Claim C7 -/

theorem entry_frame {cfg : MonitorConfig} {flSet : List Str} {env : CallEnv}
    {st : MonitorState} {e : FeedEntry} {X : Str}
    (hX : X ∉ flSet) (hp : X ∉ st.processed) :
    X ∉ (processEntry cfg flSet env st e).processed ∧
    (processEntry cfg flSet env st e).pipelineLog.count X =
      st.pipelineLog.count X := by
  rcases entry_shape cfg flSet env st e with h | ⟨eid, heid, hfl, hnot, hsh⟩
  · rw [h]
    exact ⟨hp, rfl⟩
  · have hne : lastSeg eid ≠ X := fun hh => hX (hh ▸ hfl)
    have hproc : (processEntry cfg flSet env st e).processed =
        insertId st.processed (lastSeg eid) := by
      rcases hsh with h | h
      · rw [h]
      · rw [h, downloadTorrent_processed]
    have hlog : (processEntry cfg flSet env st e).pipelineLog = st.pipelineLog ∨
        (processEntry cfg flSet env st e).pipelineLog =
          st.pipelineLog ++ [lastSeg eid] := by
      rcases hsh with h | h
      · exact Or.inl (by rw [h])
      · exact Or.inr (by rw [h, downloadTorrent_log])
    constructor
    · rw [hproc, mem_insertId]
      rintro (hh | hh)
      · exact hne hh.symm
      · exact hp hh
    · rcases hlog with h | h <;> rw [h]
      rw [count_append_one, if_neg hne]
      omega

/-- C7: for every identifier not in the live-channel confirmation set, a
feed-poll cycle performs no pipeline invocation for it and leaves it outside
`ProcessedSet`. -/
theorem c7_unconfirmed_never_downloaded (cfg : MonitorConfig) (flSet : List Str)
    (pairs : List (FeedEntry × CallEnv)) (st : MonitorState) (X : Str)
    (hX : X ∉ flSet) (hp : X ∉ st.processed) :
    X ∉ (checkRssFeed cfg flSet st (some pairs)).processed ∧
    (checkRssFeed cfg flSet st (some pairs)).pipelineLog.count X =
      st.pipelineLog.count X := by
  have hfold : ∀ (ps : List (FeedEntry × CallEnv)) (s : MonitorState),
      X ∉ s.processed →
      X ∉ (ps.foldl (fun s p => processEntry cfg flSet p.2 s p.1) s).processed ∧
      (ps.foldl (fun s p => processEntry cfg flSet p.2 s p.1) s).pipelineLog.count X =
        s.pipelineLog.count X := by
    intro ps
    induction ps with
    | nil => intro s hs; exact ⟨hs, rfl⟩
    | cons p pt ih =>
      intro s hs
      have h1 : X ∉ (processEntry cfg flSet p.2 s p.1).processed ∧
          (processEntry cfg flSet p.2 s p.1).pipelineLog.count X =
            s.pipelineLog.count X := entry_frame hX hs
      simp only [List.foldl_cons]
      have h2 := ih _ h1.1
      exact ⟨h2.1, h2.2.trans h1.2⟩
  simp only [checkRssFeed]
  exact hfold pairs _ hp

/-- Witness for C7: a cycle over one entry whose identifier is not
confirmed leaves the state without that identifier and without downloads. -/
theorem c7_unconfirmed_never_downloaded_witness :
    "42".toList ∉ (checkRssFeed cfgPlain [] st0 (some [(entry42, envNoSize)])).processed ∧
    (checkRssFeed cfgPlain [] st0
        (some [(entry42, envNoSize)])).pipelineLog.count "42".toList =
      st0.pipelineLog.count "42".toList :=
  c7_unconfirmed_never_downloaded cfgPlain [] [(entry42, envNoSize)] st0 "42".toList
    (by decide) (by decide)

/-! ## Claim C10 -/

/-- C10: the live-channel path applies the configured category filter only
when the parsed category is present and non-empty — an event with no
category bypasses the filter and is accepted for processing — whereas the
feed path always matches its default category `"Unknown"` against the
filter, so an untagged entry is skipped when no configured term matches
`"Unknown"`. -/
theorem c10_category_filter_asymmetry (cfg : MonitorConfig) (env env' : CallEnv)
    (st st' : MonitorState) (info : AnnounceInfo) (flSet : List Str)
    (e : FeedEntry) (eid : Str) :
    (categoriesTruthy cfg.categories = true → info.category = none →
      info.freeleech = true → info.id ∉ st.processed →
      info.id ∈ (onFreeleechAnnounce cfg env st info).processed ∧
      (onFreeleechAnnounce cfg env st info).torrentsFound = st.torrentsFound + 1) ∧
    (e.eid = some eid → (lastSeg eid).isEmpty = false →
      lastSeg eid ∉ st'.processed → lastSeg eid ∈ flSet → e.tags = [] →
      categoriesTruthy cfg.categories = true →
      catAny cfg.categories "Unknown".toList = false →
      processEntry cfg flSet env' st' e = st') := by
  constructor
  · intro hcat hnone hf hp
    have hc : ircCatReject cfg info.category = false := by
      unfold ircCatReject
      rw [hnone]
      simp [strTruthy]
    have h : (onFreeleechAnnounce cfg env st info).processed =
          insertId st.processed info.id ∧
        (onFreeleechAnnounce cfg env st info).torrentsFound =
          st.torrentsFound + 1 := announce_accept_state hp hf hc
    refine ⟨?_, h.2⟩
    rw [h.1]
    exact mem_insertId.mpr (Or.inl rfl)
  · intro he hne hp hfl htags hcat hmatch
    have hcr : rssCatReject cfg (rssCategory e) = true := by
      unfold rssCatReject rssCategory
      rw [htags]
      simp [hcat]
      exact hmatch
    unfold processEntry
    rw [he]
    simp only [hne, Bool.false_eq_true, if_false, if_neg hp, hcr, if_true]

/-- Witness for C10: with a `Movies` filter, a category-less live event is
accepted while an untagged feed entry (category `Unknown`) is skipped. -/
theorem c10_category_filter_asymmetry_witness :
    (infoFL.id ∈ (onFreeleechAnnounce cfgCats envNoSize st0 infoFL).processed ∧
     (onFreeleechAnnounce cfgCats envNoSize st0 infoFL).torrentsFound =
       st0.torrentsFound + 1) ∧
    processEntry cfgCats ["42".toList] envNoSize st0 entry42 = st0 :=
  have h := c10_category_filter_asymmetry cfgCats envNoSize envNoSize st0 st0 infoFL
    ["42".toList] entry42 "https://tl/torrent/42".toList
  ⟨h.1 (by decide) rfl rfl (by decide),
   h.2 rfl (by decide) (by decide) (by decide) rfl (by decide) (by decide)⟩

/-! ## Claim C1 -/

/-- C1 (code bug): the read loop adds an identifier to the confirmation set
for a parsed PRIVMSG line whose event has `freeleech = false` — evaluated
at a concrete non-freeleech announcement, the parsed flag is false and the
identifier `123` nevertheless enters `freeleech_torrents`. -/
theorem c1_nonfreeleech_id_enters_confirmation_set :
    (parseAnnounceMessage badAnnounceLine).map (fun i => i.freeleech) = some false ∧
    "123".toList ∈ (processLine ⟨[]⟩ badAnnounceLine).1.freeleechTorrents := by
  decide

/-! ## Claim C8 -/

/-- C8 (code bug): the merge of config-file values with command-line
arguments uses Python `or`, so an explicitly given falsy command-line value
is replaced by the config value — with `--min-size 0` on the command line
and `min_size = 2.0` in the config file, the effective minimum is `2.0`,
not the command-line `0`. -/
theorem c8_falsy_cli_value_loses_to_config :
    argsMinZero.minSize = some 0 ∧
    cfgFileMin2.minSize = some 2 ∧
    (mergeArgs argsMinZero cfgFileMin2).minSize = some 2 ∧
    (mergeArgs argsMinZero cfgFileMin2).minSize ≠ argsMinZero.minSize := by
  refine ⟨rfl, rfl, ?_, ?_⟩
  · show orRat (some 0) (some 2) = some 2
    simp [orRat]
  · show orRat (some 0) (some 2) ≠ some 0
    simp [orRat]

/-! ## Claim C4 -/

/-- Counterexample to C4: with no feed URL from either source (no CLI flags
and no config file), startup does not exit — the monitor is constructed
with no URL. -/
theorem c4_missing_url_startup_proceeds :
    mainStartup argsEmpty none = Except.ok (mergeArgs argsEmpty emptyConfig) ∧
    (mergeArgs argsEmpty emptyConfig).url = none :=
  ⟨rfl, rfl⟩

/-- C4 (amended): startup exits nonzero only when a config file was named
on the command line and failed to load, and then with exit code 1; when no
config file is named, startup always proceeds to construct the monitor —
a missing feed URL is never validated and never aborts startup. -/
theorem c4_exit_only_on_config_load_failure (args : CliArgs)
    (cfgLoad : Option ConfigData) (c : Nat) :
    (mainStartup args cfgLoad = .error c →
      c = 1 ∧ args.config.isSome = true ∧ cfgLoad = none) ∧
    (args.config = none →
      mainStartup args cfgLoad = .ok (mergeArgs args emptyConfig)) := by
  constructor
  · intro h
    unfold mainStartup at h
    cases hcfg : args.config with
    | none =>
      rw [hcfg] at h
      exact absurd h (by simp)
    | some p =>
      rw [hcfg] at h
      cases hld : cfgLoad with
      | none =>
        rw [hld] at h
        simp only [Except.error.injEq] at h
        exact ⟨h.symm, rfl, rfl⟩
      | some d =>
        rw [hld] at h
        exact absurd h (by simp)
  · intro h
    unfold mainStartup
    rw [h]

/-- Witness for C4 (amended): a named config file that fails to load exits
with code 1. -/
theorem c4_exit_only_on_config_load_failure_witness :
    1 = 1 ∧ argsCfgOnly.config.isSome = true ∧ (none : Option ConfigData) = none :=
  (c4_exit_only_on_config_load_failure argsCfgOnly none 1).1 rfl

/-! ## Claim C9 -/

theorem runLoop_exited_absorb :
    ∀ (envs : List LoopEnv) (st : LoopState), st.exited = true →
      runLoop st envs = (st, 0) := by
  intro envs
  induction envs with
  | nil => intro st h; rfl
  | cons e es ih =>
    intro st h
    have hstep : loopStep st e = (st, false) := by
      unfold loopStep
      rw [h]
      simp
    simp only [runLoop, hstep]
    rw [ih st h]
    rfl

/-- C9: once the loop is disconnected with the maximum number of
consecutive failed reconnection attempts accrued, it makes no further
connection attempt on any continuation and exits; an exited loop is
absorbing; and a feed poll of the main loop is unaffected by the loop
state. -/
theorem c9_reconnect_exhaustion_is_permanent (st : LoopState)
    (envs : List LoopEnv) (st₂ : LoopState) (envs₂ : List LoopEnv)
    (cfg : MonitorConfig) (feed : Option (List (FeedEntry × CallEnv)))
    (sys : SystemState) (l' : LoopState) :
    (st.exited = false → st.running = true → st.connected = false →
      maxReconnect ≤ st.attempts →
      (runLoop st envs).2 = 0 ∧ (envs = [] ∨ (runLoop st envs).1.exited = true)) ∧
    (st₂.exited = true → runLoop st₂ envs₂ = (st₂, 0)) ∧
    ((systemRssStep cfg feed { sys with loop := l' }).mon =
      (systemRssStep cfg feed sys).mon) := by
  refine ⟨?_, fun h => runLoop_exited_absorb envs₂ st₂ h, rfl⟩
  intro hex hrun hconn hmax
  cases envs with
  | nil => exact ⟨rfl, Or.inl rfl⟩
  | cons e es =>
    have hstep : loopStep st e = ({ st with exited := true }, false) := by
      unfold loopStep
      rw [hex, hrun, hconn]
      simp [Nat.not_lt.mpr hmax]
    simp only [runLoop, hstep]
    rw [runLoop_exited_absorb es _ rfl]
    exact ⟨rfl, Or.inr rfl⟩

/-- Witness for C9 at a concrete exhausted loop state. -/
theorem c9_reconnect_exhaustion_is_permanent_witness :
    ((runLoop loopExhausted [⟨true, false⟩]).2 = 0 ∧
      (([⟨true, false⟩] : List LoopEnv) = [] ∨
        (runLoop loopExhausted [⟨true, false⟩]).1.exited = true)) ∧
    runLoop (⟨true, false, 5, true⟩ : LoopState) [] = (⟨true, false, 5, true⟩, 0) ∧
    ((systemRssStep cfgPlain none
        { loop := (⟨true, false, 5, true⟩ : LoopState), irc := ⟨[]⟩, mon := st0 }).mon =
      (systemRssStep cfgPlain none
        { loop := loopExhausted, irc := ⟨[]⟩, mon := st0 }).mon) :=
  have h := c9_reconnect_exhaustion_is_permanent loopExhausted [⟨true, false⟩]
    ⟨true, false, 5, true⟩ [] cfgPlain none
    { loop := loopExhausted, irc := ⟨[]⟩, mon := st0 } ⟨true, false, 5, true⟩
  ⟨h.1 rfl rfl rfl (by decide), h.2.1 rfl, h.2.2⟩

end TLMonitor
